import Mathlib

/-!
# Metrics exporter of the runner (`cmd/metrics-exporter/main.go`)

A shallow embedding of the exporter's single source file.

* The process environment is a function from variable names to optional values.
* The Prometheus vectors declared in the `var` block are descriptors (`Vec`);
  the registry that holds them and their series is an explicit value that
  every write threads through (`Except RegistryError Registry`).
* Time is the monotonic clock in integer nanoseconds (`time.Duration` units).
* A gauge value is the rational number that the stored `float64` denotes;
  every `float64` operation of the source rounds its exact result to the
  nearest `float64`, ties to even (`roundFloat64`).
* The updater goroutine is a function of the clock readings at which its
  ticker loop body runs.
-/

namespace MetricsExporter

/-! ## Environment (main.go:13-16, 120-125) -/

/-- The process environment: a variable is unset (`none`) or bound to a string. -/
abbrev Env := String → Option String

/-- The call `os.Getenv(key)`: the value bound to the variable, and the empty
string when the variable is not present. -/
def Getenv (env : Env) (key : String) : String :=
  match env key with
  | some v => v
  | none => ""

/-- Source: main.go:120-125.
`if value := os.Getenv(key); value != "" { return value }; return defaultValue`. -/
def getEnvOrDefault (env : Env) (key defaultValue : String) : String :=
  let value := Getenv env key
  if value ≠ "" then value else defaultValue

/-- Source: main.go:14. -/
def runnerName (env : Env) : String := getEnvOrDefault env "RUNNER_NAME" "unknown"

/-- Source: main.go:15. -/
def runnerType (env : Env) : String := getEnvOrDefault env "RUNNER_TYPE" "standard"

/-- Source: main.go:16. -/
def runnerVersion : String := "2.329.0"

/-! ## Declared vectors (main.go:18-69) -/

/-- The three kinds of vector the file constructs:
`NewGaugeVec`, `NewCounterVec`, `NewHistogramVec`. -/
inductive Kind where
  | gauge
  | counter
  | histogram
  deriving DecidableEq, Repr

/-- Modelled from the spec: the client library's `ExponentialBuckets(start,
factor, count)` is not part of the repository. The spec gives the bounds of
the one call in the file as `10 × 2^0..9`; the model is the library's loop
`buckets[i] = start; start *= factor`. -/
def expBucketsFrom (start factor : ℚ) : Nat → List ℚ
  | 0 => []
  | n + 1 => start :: expBucketsFrom (start * factor) factor n

/-- Modelled from the spec: `ExponentialBuckets` with the library's argument
checks (it fails for `count < 1`, `start ≤ 0` or `factor ≤ 1`). -/
def ExponentialBuckets (start factor : ℚ) (count : Nat) : Option (List ℚ) :=
  if count < 1 ∨ start ≤ 0 ∨ factor ≤ 1 then none
  else some (expBucketsFrom start factor count)

/-- A declared vector: the kind of constructor used, the `Name` and `Help` of
its options, the `Buckets` of a histogram (empty otherwise) and the label
names passed as second argument. -/
structure Vec where
  kind : Kind
  Name : String
  Help : String
  Buckets : List ℚ
  labelNames : List String
  deriving DecidableEq, Repr

/-- Source: main.go:19-25. -/
def runnerStatus : Vec :=
  { kind := .gauge
    Name := "github_runner_status"
    Help := "Runner online status (1=online, 0=offline)"
    Buckets := []
    labelNames := ["runner_name", "runner_type"] }

/-- Source: main.go:27-33. -/
def runnerUptime : Vec :=
  { kind := .gauge
    Name := "github_runner_uptime_seconds"
    Help := "Runner uptime in seconds"
    Buckets := []
    labelNames := ["runner_name", "runner_type"] }

/-- Source: main.go:35-41. -/
def runnerInfo : Vec :=
  { kind := .gauge
    Name := "github_runner_info"
    Help := "Runner metadata"
    Buckets := []
    labelNames := ["runner_name", "runner_type", "version"] }

/-- Source: main.go:44-50. -/
def jobsTotal : Vec :=
  { kind := .counter
    Name := "github_runner_jobs_total"
    Help := "Total jobs executed by status"
    Buckets := []
    labelNames := ["runner_name", "runner_type", "status"] }

/-- Source: main.go:53-60. The buckets are `ExponentialBuckets(10, 2, 10)`. -/
def jobDuration : Vec :=
  { kind := .histogram
    Name := "github_runner_job_duration_seconds"
    Help := "Job duration in seconds"
    Buckets := (ExponentialBuckets 10 2 10).getD []
    labelNames := ["runner_name", "runner_type", "status"] }

/-- Source: main.go:62-68. -/
def cacheHitRate : Vec :=
  { kind := .gauge
    Name := "github_runner_cache_hit_rate"
    Help := "Cache hit rate (0.0 to 1.0)"
    Buckets := []
    labelNames := ["runner_name", "runner_type", "cache_type"] }

/-! ## Registry -/

/-- Modelled from the spec: the client library's failures are not part of the
repository. The registry-level errors of the spec's taxonomy, plus
`WrongKindError` for a write whose operation does not fit the family's kind (the spec calls
`set` gauge-only without naming the failure; in the source the Go types rule
it out, `Set` exists on the child of a `GaugeVec` only). -/
inductive RegistryError where
  | DuplicateFamilyError
  | UnknownFamilyError
  | LabelMismatchError
  | InvalidDeltaError
  | WrongKindError
  deriving DecidableEq, Repr

/-- Modelled from the spec: a `MetricSeries` of the registry, which is not part
of the repository. One series of a family: its label values, in the order of the family's
label names, and its current value. -/
structure MetricSeries where
  labelValues : List String
  value : ℚ
  deriving DecidableEq, Repr

/-- Modelled from the spec: a `MetricFamily` of the registry, which is not part
of the repository. Its declaration and the series created so far, oldest
first. -/
structure MetricFamily where
  desc : Vec
  series : List MetricSeries
  deriving DecidableEq, Repr

/-- Modelled from the spec: the registry (the client library's default
registry and the children maps of the vectors) is not part of the
repository. It holds the declared families in declaration order. -/
structure Registry where
  families : List MetricFamily
  deriving DecidableEq, Repr

/-- Modelled from the spec: the registry at process start, before any family
is declared. -/
def Registry.empty : Registry := { families := [] }

/-- Modelled from the spec: the upsert that `set` performs on a family's
series list, which the repository leaves to the client library. An existing series with
these label values gets the new value, otherwise a new series is appended. -/
def upsert (labelValues : List String) (value : ℚ) : List MetricSeries → List MetricSeries
  | [] => [{ labelValues := labelValues, value := value }]
  | s :: rest =>
    if s.labelValues = labelValues then { s with value := value } :: rest
    else s :: upsert labelValues value rest

/-- Modelled from the spec: reading a series of a family, done by the client
library. The current value of the series with these label values, if it
exists. -/
def findSeries (labelValues : List String) : List MetricSeries → Option ℚ
  | [] => none
  | s :: rest =>
    if s.labelValues = labelValues then some s.value else findSeries labelValues rest

/-- Modelled from the spec: `declare_family` registers a family and fails with
`DuplicateFamilyError` if the name is already declared
(`prometheus.MustRegister` in the source, where the failure is fatal). -/
def Registry.declare_family (r : Registry) (v : Vec) : Except RegistryError Registry :=
  if r.families.any (fun f => decide (f.desc.Name = v.Name)) then
    .error .DuplicateFamilyError
  else
    .ok { families := r.families ++ [{ desc := v, series := [] }] }

/-- Modelled from the spec: `set(name, label_values, value)`, gauge-only,
upserts the series' current value; fails with `UnknownFamilyError` if the
name is not declared and with `LabelMismatchError` if the number of label
values differs from the number of label names
(`vec.WithLabelValues(...).Set(value)` in the source, where a failure is
fatal). -/
def Registry.set (r : Registry) (name : String) (labelValues : List String) (value : ℚ) :
    Except RegistryError Registry :=
  match r.families.find? (fun f => decide (f.desc.Name = name)) with
  | none => .error .UnknownFamilyError
  | some f =>
    if f.desc.kind ≠ .gauge then .error .WrongKindError
    else if labelValues.length ≠ f.desc.labelNames.length then .error .LabelMismatchError
    else
      .ok { families := r.families.map (fun g =>
              if g.desc.Name = name then
                { g with series := upsert labelValues value g.series }
              else g) }

/-- Modelled from the spec: reading the registry, done by the client library.
The current value of a series, addressed by family name and label values. -/
def Registry.lookup (r : Registry) (name : String) (labelValues : List String) : Option ℚ :=
  match r.families.find? (fun f => decide (f.desc.Name = name)) with
  | none => none
  | some f => findSeries labelValues f.series

/-- Modelled from the spec: one line of a snapshot of the registry, which the
client library renders. It holds the family's metric name, the series' labels as
(label name, label value) pairs in declaration order, and the value. -/
structure Sample where
  name : String
  labels : List (String × String)
  value : ℚ
  deriving DecidableEq, Repr

/-- Modelled from the spec: `snapshot()` is a copy of all families and their
series; here flattened to one sample per series, families in declaration
order. -/
def Registry.snapshot (r : Registry) : List Sample :=
  (r.families.map (fun f => f.series.map (fun s =>
    ({ name := f.desc.Name
       labels := f.desc.labelNames.zip s.labelValues
       value := s.value } : Sample)))).flatten

/-! ## Time (main.go:105-111) -/

/-- The constant `time.Second`, in nanoseconds, the unit of `time.Duration`. -/
def Second : Int := 1000000000

/-- The call `time.Since(startTime)` made when the monotonic clock reads `now`:
the elapsed duration in nanoseconds. Readings of the monotonic clock are
non-negative `int64` offsets from process start, so the `int64` difference
of two of them cannot leave its range and is the plain difference. -/
def Since (startTime now : Int) : Int := now - startTime

/-- Rounding of a rational to the nearest integer, ties to the even one. -/
def roundHalfEven (q : ℚ) : Int :=
  let f := ⌊q⌋
  if q - f < 1 / 2 then f
  else if 1 / 2 < q - f then f + 1
  else if f % 2 = 0 then f else f + 1

/-- The exponent of the last place of a `float64` near `x`: a value in
`[2^k, 2^(k+1))` lies on the grid of multiples of `2^(k-52)` (53 significant
bits), and below the normal range the grid is that of the subnormals,
`2^(-1074)`. -/
def ulpExp (x : ℚ) : Int := max (Int.log 2 |x| - 52) (-1074)

/-- The `float64` nearest to the exact value `x`, ties to even: what a
`float64` conversion, division or addition of the source yields for the exact
result `x`. Overflow to infinity is left out: it needs `|x| ≥ 2^1024`, and the
values the program rounds come from `int64` durations. -/
def roundFloat64 (x : ℚ) : ℚ := (roundHalfEven (x / 2 ^ ulpExp x) : ℚ) * 2 ^ ulpExp x

/-- The method `Duration.Seconds()`:
`sec := d / Second; nsec := d % Second; return float64(sec) + float64(nsec)/1e9`,
with truncating integer division and each `float64` operation rounded. -/
def Seconds (d : Int) : ℚ :=
  let sec := Int.tdiv d Second
  let nsec := Int.tmod d Second
  roundFloat64 (roundFloat64 (sec : ℚ) + roundFloat64 (roundFloat64 (nsec : ℚ) / 1000000000))

/-- Source: main.go:106, the period handed to `time.NewTicker`. -/
def tickPeriod : Int := 5 * Second

/-! ## The program (main.go:71-118) -/

/-- One statement `vec.WithLabelValues(labelValues...).Set(value)`. -/
structure GaugeSet where
  vec : Vec
  labelValues : List String
  value : ℚ
  deriving DecidableEq, Repr

/-- Executing one `Set` statement against the registry. -/
def GaugeSet.exec (r : Registry) (w : GaugeSet) : Except RegistryError Registry :=
  r.set w.vec.Name w.labelValues w.value

/-- Executing statements in order, stopping at the first failure (a panic in
the source). -/
def execAll (r : Registry) : List GaugeSet → Except RegistryError Registry
  | [] => .ok r
  | w :: ws =>
    match w.exec r with
    | .error e => .error e
    | .ok r1 => execAll r1 ws

/-- Source: main.go:71-79, the six `prometheus.MustRegister` calls in order. -/
def init : Except RegistryError Registry := do
  let r ← Registry.empty.declare_family runnerStatus
  let r ← r.declare_family runnerUptime
  let r ← r.declare_family runnerInfo
  let r ← r.declare_family jobsTotal
  let r ← r.declare_family jobDuration
  r.declare_family cacheHitRate

/-- Source: main.go:81-90, the registry writes of `main`: the seeding of the
status and info series (lines 85-86), made before `go updateMetrics()`. The
rest of `main` (logging, registering the handlers, listening) writes no
series. -/
def main (env : Env) : List GaugeSet :=
  [ { vec := runnerStatus, labelValues := [runnerName env, runnerType env], value := 1 },
    { vec := runnerInfo, labelValues := [runnerName env, runnerType env, runnerVersion],
      value := 1 } ]

/-- Source: main.go:110-112, the body of the ticker loop run when the clock
reads `now`, in an updater whose `startTime` was read at its entry. -/
def updateMetricsTick (env : Env) (startTime now : Int) : GaugeSet :=
  let uptime := Seconds (Since startTime now)
  { vec := runnerUptime, labelValues := [runnerName env, runnerType env], value := uptime }

/-- Source: main.go:104-118, the writes of the updater whose loop body runs at
the clock readings `ticks`, in order. -/
def updateMetrics (env : Env) (startTime : Int) (ticks : List Int) : List GaugeSet :=
  ticks.map (updateMetricsTick env startTime)

/-- Every registry write of the process, in program order: the seeding of
`main`, then the updater's ticks. -/
def trace (env : Env) (startTime : Int) (ticks : List Int) : List GaugeSet :=
  main env ++ updateMetrics env startTime ticks

/-- The registry right after `init` and the seeding of `main`, before the
updater has run a tick. -/
def startup (env : Env) : Except RegistryError Registry := do
  let r ← init
  execAll r (main env)

/-- The registry after startup followed by the updater's ticks. -/
def run (env : Env) (startTime : Int) (ticks : List Int) : Except RegistryError Registry := do
  let r ← startup env
  execAll r (updateMetrics env startTime ticks)

/-- The clock readings of the first `k` ticks when the loop body runs at
exactly one period's spacing from `startTime`. -/
def periodicTicks (startTime : Int) (k : Nat) : List Int :=
  (List.range k).map (fun i => startTime + ((i : Int) + 1) * tickPeriod)

/-! ## The health endpoint (main.go:93-96) -/

/-- An incoming HTTP request, as far as a handler can inspect it. -/
structure Request where
  Method : String
  Path : String
  Header : List (String × String)
  Body : String
  deriving DecidableEq, Repr

/-- The state of an `http.ResponseWriter`: the status code once the header
has been written, and the body bytes written so far. -/
structure ResponseWriter where
  status : Option Nat
  body : String
  deriving DecidableEq, Repr

/-- The writer handed to a handler: nothing written yet. -/
def ResponseWriter.fresh : ResponseWriter := { status := none, body := "" }

/-- The constant `http.StatusOK`. -/
def StatusOK : Nat := 200

/-- The method `WriteHeader(code)`: fixes the status unless already written. -/
def ResponseWriter.WriteHeader (w : ResponseWriter) (code : Nat) : ResponseWriter :=
  match w.status with
  | some _ => w
  | none => { w with status := some code }

/-- The method `Write(b)`: writes the header with `StatusOK` if none was
written, then appends to the body. -/
def ResponseWriter.Write (w : ResponseWriter) (b : String) : ResponseWriter :=
  let w1 := w.WriteHeader StatusOK
  { w1 with body := w1.body ++ b }

/-- Source: main.go:93-96, the function registered for `/health`. -/
def healthHandler (w : ResponseWriter) (_r : Request) : ResponseWriter :=
  (w.WriteHeader StatusOK).Write "OK"

/-- Serving one request to `/health` in a process whose registry is `reg`:
the registry afterwards and the response written. -/
def serveHealth (reg : Registry) (r : Request) : Registry × ResponseWriter :=
  (reg, healthHandler ResponseWriter.fresh r)

/-! ## Concrete inputs used by the examples -/

/-- The environment of the spec's scenario: `RUNNER_NAME=ci-1`, `RUNNER_TYPE=gpu`. -/
def envCi : Env := fun k =>
  if k = "RUNNER_NAME" then some "ci-1"
  else if k = "RUNNER_TYPE" then some "gpu"
  else none

/-- An environment that binds nothing. -/
def envUnset : Env := fun _ => none

/-- An environment that binds both identity variables to the empty string. -/
def envBlank : Env := fun k =>
  if k = "RUNNER_NAME" then some ""
  else if k = "RUNNER_TYPE" then some ""
  else none

/-! ## The shape of every reachable registry -/

/-- The registry reached by the program: the six families in declaration
order, the seeded status and info series, and `uptime` as the series of the
uptime family. -/
def seeded (env : Env) (uptime : List MetricSeries) : Registry :=
  { families :=
      [ { desc := runnerStatus
          series := [{ labelValues := [runnerName env, runnerType env], value := 1 }] },
        { desc := runnerUptime, series := uptime },
        { desc := runnerInfo
          series := [{ labelValues := [runnerName env, runnerType env, runnerVersion],
                       value := 1 }] },
        { desc := jobsTotal, series := [] },
        { desc := jobDuration, series := [] },
        { desc := cacheHitRate, series := [] } ] }

/-- The series of the uptime family after the updater's ticks: none before
the first tick, afterwards the one series written by the latest tick. -/
def uptimeAfter (env : Env) (startTime : Int) (ticks : List Int) : List MetricSeries :=
  match ticks.getLast? with
  | none => []
  | some t =>
    [{ labelValues := [runnerName env, runnerType env], value := Seconds (Since startTime t) }]

theorem init_eq :
    init = .ok { families := [⟨runnerStatus, []⟩, ⟨runnerUptime, []⟩, ⟨runnerInfo, []⟩,
      ⟨jobsTotal, []⟩, ⟨jobDuration, []⟩, ⟨cacheHitRate, []⟩] } := by
  rfl

theorem startup_eq (env : Env) : startup env = .ok (seeded env []) := by
  simp [startup, init_eq, main, execAll, GaugeSet.exec, Registry.set, seeded, upsert,
    runnerStatus, runnerUptime, runnerInfo, jobsTotal, jobDuration, cacheHitRate, bind,
    Except.bind]

theorem tick_exec (env : Env) (startTime now : Int) (u : List MetricSeries) :
    (updateMetricsTick env startTime now).exec (seeded env u) =
      .ok (seeded env (upsert [runnerName env, runnerType env]
        (Seconds (Since startTime now)) u)) := by
  simp [updateMetricsTick, GaugeSet.exec, Registry.set, seeded,
    runnerStatus, runnerUptime, runnerInfo, jobsTotal, jobDuration, cacheHitRate]

theorem upsert_uptimeAfter (env : Env) (startTime now : Int) (ticks : List Int) :
    upsert [runnerName env, runnerType env] (Seconds (Since startTime now))
      (uptimeAfter env startTime ticks) = uptimeAfter env startTime (ticks ++ [now]) := by
  unfold uptimeAfter
  rw [List.getLast?_append]
  cases h : ticks.getLast? <;> simp [upsert]

theorem execAll_ticks (env : Env) (startTime : Int) (ticks : List Int) :
    ∀ done : List Int,
      execAll (seeded env (uptimeAfter env startTime done)) (updateMetrics env startTime ticks)
        = .ok (seeded env (uptimeAfter env startTime (done ++ ticks))) := by
  induction ticks with
  | nil => intro done; simp [updateMetrics, execAll]
  | cons t ts ih =>
    intro done
    have h := ih (done ++ [t])
    simp only [updateMetrics, List.map_cons, execAll, tick_exec, upsert_uptimeAfter] at h ⊢
    simpa using h

theorem run_eq (env : Env) (startTime : Int) (ticks : List Int) :
    run env startTime ticks = .ok (seeded env (uptimeAfter env startTime ticks)) := by
  have h := execAll_ticks env startTime ticks []
  simp only [List.nil_append] at h
  simp only [run, startup_eq, bind, Except.bind]
  exact h

theorem execAll_append (ws1 ws2 : List GaugeSet) :
    ∀ r : Registry, execAll r (ws1 ++ ws2) = (execAll r ws1).bind (fun r1 => execAll r1 ws2) := by
  induction ws1 with
  | nil => intro r; rfl
  | cons w ws ih =>
    intro r
    simp only [List.cons_append, execAll]
    cases w.exec r with
    | error e => rfl
    | ok r1 => exact ih r1

theorem run_eq_trace (env : Env) (startTime : Int) (ticks : List Int) :
    run env startTime ticks = init.bind (fun r => execAll r (trace env startTime ticks)) := by
  simp only [run, startup, trace, bind, execAll_append]
  cases init with
  | error e => rfl
  | ok r => rfl

theorem lookup_status_seeded (env : Env) (u : List MetricSeries) :
    (seeded env u).lookup runnerStatus.Name [runnerName env, runnerType env] = some 1 := by
  simp [Registry.lookup, seeded, findSeries, runnerStatus]

theorem lookup_info_seeded (env : Env) (u : List MetricSeries) :
    (seeded env u).lookup runnerInfo.Name [runnerName env, runnerType env, runnerVersion]
      = some 1 := by
  simp [Registry.lookup, seeded, findSeries, runnerStatus, runnerUptime, runnerInfo]

theorem lookup_uptime_seeded (env : Env) (u : List MetricSeries) (lv : List String) :
    (seeded env u).lookup runnerUptime.Name lv = findSeries lv u := by
  simp [Registry.lookup, seeded, runnerStatus, runnerUptime]

theorem roundHalfEven_intCast (n : Int) : roundHalfEven (n : ℚ) = n := by
  simp [roundHalfEven]

theorem floor_le_roundHalfEven (q : ℚ) : ⌊q⌋ ≤ roundHalfEven q := by
  unfold roundHalfEven
  simp only
  split_ifs <;> omega

theorem roundHalfEven_le_floor_add_one (q : ℚ) : roundHalfEven q ≤ ⌊q⌋ + 1 := by
  unfold roundHalfEven
  simp only
  split_ifs <;> omega

theorem roundHalfEven_mono {p q : ℚ} (h : p ≤ q) : roundHalfEven p ≤ roundHalfEven q := by
  have hf : ⌊p⌋ ≤ ⌊q⌋ := Int.floor_mono h
  rcases hf.lt_or_eq with hlt | heq
  · have h1 := roundHalfEven_le_floor_add_one p
    have h2 := floor_le_roundHalfEven q
    omega
  · unfold roundHalfEven
    simp only
    rw [heq]
    split_ifs <;> first | omega | (exfalso; linarith)

theorem abs_roundHalfEven_sub_le (q : ℚ) : |(roundHalfEven q : ℚ) - q| ≤ 1 / 2 := by
  have h1 := Int.floor_le q
  have h2 := Int.lt_floor_add_one q
  unfold roundHalfEven
  simp only
  rw [abs_le]
  split_ifs <;> push_cast <;> constructor <;> linarith

theorem two_zpow_pos (e : Int) : (0 : ℚ) < 2 ^ e := zpow_pos (by norm_num) e

theorem grid_rescale (x : ℚ) (m e : Int) (he : ulpExp x ≤ e) :
    (m : ℚ) * 2 ^ e = ((m * 2 ^ (e - ulpExp x).toNat : Int) : ℚ) * 2 ^ ulpExp x := by
  have hk : e = ulpExp x + ((e - ulpExp x).toNat : Int) := by omega
  generalize (e - ulpExp x).toNat = k at hk
  rw [hk, zpow_add₀ (by norm_num), zpow_natCast]
  push_cast
  ring

theorem roundFloat64_le_grid {x : ℚ} {m e : Int} (he : ulpExp x ≤ e)
    (h : x ≤ (m : ℚ) * 2 ^ e) : roundFloat64 x ≤ (m : ℚ) * 2 ^ e := by
  have hp := two_zpow_pos (ulpExp x)
  rw [grid_rescale x m e he] at h ⊢
  unfold roundFloat64
  apply mul_le_mul_of_nonneg_right _ hp.le
  have h1 : x / 2 ^ ulpExp x ≤ ((m * 2 ^ (e - ulpExp x).toNat : Int) : ℚ) := by
    rwa [div_le_iff₀ hp]
  have h2 := roundHalfEven_mono h1
  rw [roundHalfEven_intCast] at h2
  exact_mod_cast h2

theorem grid_le_roundFloat64 {x : ℚ} {m e : Int} (he : ulpExp x ≤ e)
    (h : (m : ℚ) * 2 ^ e ≤ x) : (m : ℚ) * 2 ^ e ≤ roundFloat64 x := by
  have hp := two_zpow_pos (ulpExp x)
  rw [grid_rescale x m e he] at h ⊢
  unfold roundFloat64
  apply mul_le_mul_of_nonneg_right _ hp.le
  have h1 : ((m * 2 ^ (e - ulpExp x).toNat : Int) : ℚ) ≤ x / 2 ^ ulpExp x := by
    rwa [le_div_iff₀ hp]
  have h2 := roundHalfEven_mono h1
  rw [roundHalfEven_intCast] at h2
  exact_mod_cast h2

theorem roundFloat64_zero : roundFloat64 0 = 0 := by
  simp [roundFloat64, roundHalfEven]

theorem ulpExp_le_of_lt {x : ℚ} {e : Int} (hx : x ≠ 0) (h : |x| < 2 ^ (e + 53))
    (he : -1074 ≤ e) : ulpExp x ≤ e := by
  have hpos : 0 < |x| := abs_pos.mpr hx
  have hlog : Int.log 2 |x| < e + 53 := by
    have := (Int.lt_zpow_iff_log_lt (b := 2) (by norm_num) hpos).mp (by exact_mod_cast h)
    exact this
  unfold ulpExp
  exact max_le (by omega) he

theorem roundFloat64_intCast (n : Int) (h : |n| < 2 ^ 53) : roundFloat64 (n : ℚ) = n := by
  have hE : ulpExp (n : ℚ) ≤ 0 := by
    by_cases hn : n = 0
    · subst hn
      simp [ulpExp]
    · apply ulpExp_le_of_lt (by exact_mod_cast hn) _ (by norm_num)
      have h53 : |(n : ℚ)| < 2 ^ 53 := by exact_mod_cast h
      have hz : (2 : ℚ) ^ ((0 : Int) + 53) = 2 ^ 53 := by norm_num
      rw [hz]
      exact h53
  have h1 := roundFloat64_le_grid (x := (n : ℚ)) (m := n) hE (by simp)
  have h2 := grid_le_roundFloat64 (x := (n : ℚ)) (m := n) hE (by simp)
  simp only [zpow_zero, mul_one] at h1 h2
  exact le_antisymm h1 h2

theorem roundFloat64_nonneg {x : ℚ} (h : 0 ≤ x) : 0 ≤ roundFloat64 x := by
  have := grid_le_roundFloat64 (x := x) (m := 0) (e := ulpExp x) le_rfl (by simpa using h)
  simpa using this

theorem roundFloat64_mono_pos {x y : ℚ} (hx : 0 < x) (h : x ≤ y) :
    roundFloat64 x ≤ roundFloat64 y := by
  have hy : 0 < y := lt_of_lt_of_le hx h
  have hlog : Int.log 2 x ≤ Int.log 2 y := Int.log_mono_right hx h
  have hEx : ulpExp x = max (Int.log 2 x - 52) (-1074) := by rw [ulpExp, abs_of_pos hx]
  have hEy : ulpExp y = max (Int.log 2 y - 52) (-1074) := by rw [ulpExp, abs_of_pos hy]
  have hE : ulpExp x ≤ ulpExp y := by
    rw [hEx, hEy]
    exact max_le_max (by omega) le_rfl
  rcases hE.lt_or_eq with hlt | heq
  · have hEy2 : ulpExp y = Int.log 2 y - 52 := by
      rcases le_total (Int.log 2 y - 52) (-1074) with hc | hc
      · exfalso
        rw [hEy, max_eq_right hc, hEx] at hlt
        exact absurd (le_max_right _ _) (not_le.mpr hlt)
      · rw [hEy, max_eq_left hc]
    have hxl : Int.log 2 x - 52 ≤ ulpExp x := by rw [hEx]; exact le_max_left _ _
    have hB1 : x ≤ ((2 ^ 52 : Int) : ℚ) * 2 ^ ulpExp y := by
      have h1 : x < (2 : ℚ) ^ (Int.log 2 x + 1) := by
        exact_mod_cast Int.lt_zpow_succ_log_self (b := 2) (by norm_num) x
      have h2 : (2 : ℚ) ^ (Int.log 2 x + 1) ≤ 2 ^ (ulpExp y + 52) :=
        zpow_le_zpow_right₀ (by norm_num) (by omega)
      have h3 : ((2 ^ 52 : Int) : ℚ) * 2 ^ ulpExp y = 2 ^ (ulpExp y + 52) := by
        rw [zpow_add₀ (by norm_num)]
        push_cast
        rw [mul_comm]
        norm_num
      rw [h3]
      linarith
    have hB2 : ((2 ^ 52 : Int) : ℚ) * 2 ^ ulpExp y ≤ y := by
      have h1 : (2 : ℚ) ^ Int.log 2 y ≤ y := by
        exact_mod_cast Int.zpow_log_le_self (b := 2) (by norm_num) hy
      have h3 : ((2 ^ 52 : Int) : ℚ) * 2 ^ ulpExp y = 2 ^ Int.log 2 y := by
        rw [hEy2, zpow_sub₀ (by norm_num)]
        push_cast
        field_simp
        norm_num
        ring
      rw [h3]
      exact h1
    exact (roundFloat64_le_grid hlt.le hB1).trans (grid_le_roundFloat64 le_rfl hB2)
  · unfold roundFloat64
    rw [heq]
    have hp := two_zpow_pos (ulpExp y)
    apply mul_le_mul_of_nonneg_right _ hp.le
    have h1 : x / 2 ^ ulpExp y ≤ y / 2 ^ ulpExp y := div_le_div_of_nonneg_right h hp.le
    exact_mod_cast roundHalfEven_mono h1

theorem roundFloat64_mono {x y : ℚ} (hx : 0 ≤ x) (h : x ≤ y) :
    roundFloat64 x ≤ roundFloat64 y := by
  rcases hx.lt_or_eq with hpos | hz
  · exact roundFloat64_mono_pos hpos h
  · rw [← hz, roundFloat64_zero]
    exact roundFloat64_nonneg (hz ▸ h)

theorem abs_roundFloat64_sub_le (x : ℚ) : |roundFloat64 x - x| ≤ 2 ^ ulpExp x / 2 := by
  have hp := two_zpow_pos (ulpExp x)
  have h := abs_roundHalfEven_sub_le (x / 2 ^ ulpExp x)
  have h1 : roundFloat64 x - x
      = ((roundHalfEven (x / 2 ^ ulpExp x) : ℚ) - x / 2 ^ ulpExp x) * 2 ^ ulpExp x := by
    unfold roundFloat64
    field_simp
  rw [h1, abs_mul, abs_of_pos hp]
  calc |(roundHalfEven (x / 2 ^ ulpExp x) : ℚ) - x / 2 ^ ulpExp x| * 2 ^ ulpExp x
      ≤ 1 / 2 * 2 ^ ulpExp x := mul_le_mul_of_nonneg_right h hp.le
    _ = 2 ^ ulpExp x / 2 := by ring

theorem Seconds_of_nonneg {d : Int} (h0 : 0 ≤ d) (h1 : d < 2 ^ 63) :
    Seconds d = roundFloat64 (((d / Second : Int) : ℚ)
      + roundFloat64 (((d % Second : Int) : ℚ) / 1000000000)) := by
  have hS : (0 : Int) ≤ Second := by decide
  have hs0 : 0 ≤ d / Second := Int.ediv_nonneg h0 hS
  have hn0 : 0 ≤ d % Second := Int.emod_nonneg d (by decide)
  have hn1 : d % Second < Second := Int.emod_lt_of_pos d (by decide)
  have hs1 : d / Second ≤ d := Int.ediv_le_self _ h0
  simp only [Second] at hs0 hn0 hn1 hs1
  unfold Seconds
  simp only [Int.tdiv_eq_ediv h0 hS, Int.tmod_eq_emod h0 hS]
  rw [roundFloat64_intCast (d / Second), roundFloat64_intCast (d % Second)]
  · simp only [Second]
    rw [abs_of_nonneg hn0]
    omega
  · simp only [Second]
    rw [abs_of_nonneg hs0]
    omega

theorem frac_bounds {n : Int} (h0 : 0 ≤ n) (h1 : n < 1000000000) :
    0 ≤ roundFloat64 ((n : ℚ) / 1000000000) ∧ roundFloat64 ((n : ℚ) / 1000000000) ≤ 1 := by
  have hn0 : (0 : ℚ) ≤ (n : ℚ) := by exact_mod_cast h0
  have hn1 : (n : ℚ) < 1000000000 := by exact_mod_cast h1
  have hq0 : (0 : ℚ) ≤ (n : ℚ) / 1000000000 := div_nonneg hn0 (by norm_num)
  have hq1 : (n : ℚ) / 1000000000 ≤ ((1 : Int) : ℚ) := by
    rw [div_le_iff₀ (by norm_num)]
    push_cast
    linarith
  refine ⟨roundFloat64_nonneg hq0, ?_⟩
  have h := roundFloat64_mono hq0 hq1
  rw [roundFloat64_intCast 1 (by decide)] at h
  exact_mod_cast h

theorem Seconds_mono {d1 d2 : Int} (h0 : 0 ≤ d1) (h : d1 ≤ d2) (h2 : d2 < 2 ^ 63) :
    Seconds d1 ≤ Seconds d2 := by
  have h02 : 0 ≤ d2 := le_trans h0 h
  rw [Seconds_of_nonneg h0 (lt_of_le_of_lt h h2), Seconds_of_nonneg h02 h2]
  have hs1 : 0 ≤ d1 / Second := Int.ediv_nonneg h0 (by decide)
  have hn1 : 0 ≤ d1 % Second := Int.emod_nonneg d1 (by decide)
  have hn1' : d1 % Second < Second := Int.emod_lt_of_pos d1 (by decide)
  have hn2 : 0 ≤ d2 % Second := Int.emod_nonneg d2 (by decide)
  have hn2' : d2 % Second < Second := Int.emod_lt_of_pos d2 (by decide)
  have hs : d1 / Second ≤ d2 / Second := Int.ediv_le_ediv (by decide) h
  have e1 := Int.ediv_add_emod d1 Second
  have e2 := Int.ediv_add_emod d2 Second
  simp only [Second] at hs1 hn1 hn1' hn2 hn2' hs e1 e2
  have f1 := frac_bounds hn1 hn1'
  have f2 := frac_bounds hn2 hn2'
  simp only [Second]
  have hs1q : (0 : ℚ) ≤ ((d1 / 1000000000 : Int) : ℚ) := by exact_mod_cast hs1
  apply roundFloat64_mono (add_nonneg hs1q f1.1)
  rcases hs.lt_or_eq with hlt | heq
  · have hq : ((d1 / 1000000000 : Int) : ℚ) + 1 ≤ ((d2 / 1000000000 : Int) : ℚ) := by
      exact_mod_cast hlt
    linarith [f1.2, f2.1]
  · rw [heq]
    have hn : d1 % 1000000000 ≤ d2 % 1000000000 := by omega
    have hnq : ((d1 % 1000000000 : Int) : ℚ) / 1000000000
        ≤ ((d2 % 1000000000 : Int) : ℚ) / 1000000000 :=
      div_le_div_of_nonneg_right (by exact_mod_cast hn) (by norm_num)
    have h0q : (0 : ℚ) ≤ ((d1 % 1000000000 : Int) : ℚ) / 1000000000 :=
      div_nonneg (by exact_mod_cast hn1) (by norm_num)
    linarith [roundFloat64_mono h0q hnq]

theorem Seconds_whole {s : Int} (h0 : 0 ≤ s) (h1 : s * Second < 2 ^ 63) :
    Seconds (s * Second) = s := by
  have hd0 : 0 ≤ s * Second := Int.mul_nonneg h0 (by decide)
  rw [Seconds_of_nonneg hd0 h1]
  have e1 : s * Second / Second = s := Int.mul_ediv_cancel s (by decide)
  have e2 : s * Second % Second = 0 := Int.mul_emod_left s Second
  rw [e1, e2]
  simp only [Int.cast_zero, zero_div, roundFloat64_zero, add_zero]
  apply roundFloat64_intCast
  rw [abs_of_nonneg h0]
  simp only [Second] at h1
  omega

theorem Seconds_error {d : Int} (h0 : 0 ≤ d) (h1 : d < 2 ^ 63) :
    |Seconds d - (d : ℚ) / 1000000000| < 1 / 500000 := by
  rw [Seconds_of_nonneg h0 h1]
  have hs0 : 0 ≤ d / Second := Int.ediv_nonneg h0 (by decide)
  have hn0 : 0 ≤ d % Second := Int.emod_nonneg d (by decide)
  have hn1 : d % Second < Second := Int.emod_lt_of_pos d (by decide)
  have hs1 : d / Second < 9223372037 := by
    simp only [Second]
    omega
  have e := Int.ediv_add_emod d Second
  simp only [Second] at hs0 hn0 hn1 hs1 e ⊢
  have f := frac_bounds hn0 hn1
  set sec : Int := d / 1000000000 with hsec
  set nsec : Int := d % 1000000000 with hnsec
  set fr : ℚ := roundFloat64 ((nsec : ℚ) / 1000000000) with hfr
  have hd : (d : ℚ) = 1000000000 * (sec : ℚ) + (nsec : ℚ) := by exact_mod_cast e.symm
  have hsq0 : (0 : ℚ) ≤ (sec : ℚ) := by exact_mod_cast hs0
  have hsq1 : (sec : ℚ) < 9223372037 := by exact_mod_cast hs1
  have hnq0 : (0 : ℚ) ≤ (nsec : ℚ) := by exact_mod_cast hn0
  have hnq1 : (nsec : ℚ) < 1000000000 := by exact_mod_cast hn1
  -- the rounding of the quotient
  have hA : |fr - (nsec : ℚ) / 1000000000| ≤ 2 ^ (-53 : Int) / 2 := by
    by_cases hz : (nsec : ℚ) / 1000000000 = 0
    · rw [hfr, hz, roundFloat64_zero]
      norm_num
    · refine le_trans (abs_roundFloat64_sub_le _) ?_
      have hE : ulpExp ((nsec : ℚ) / 1000000000) ≤ -53 := by
        apply ulpExp_le_of_lt hz _ (by norm_num)
        rw [abs_of_nonneg (div_nonneg hnq0 (by norm_num))]
        norm_num
        rw [div_lt_iff₀ (by norm_num)]
        linarith
      exact div_le_div_of_nonneg_right
        (zpow_le_zpow_right₀ (a := (2 : ℚ)) (by norm_num) hE) (by norm_num)
  -- the rounding of the sum
  have hB : |roundFloat64 ((sec : ℚ) + fr) - ((sec : ℚ) + fr)| ≤ 2 ^ (-19 : Int) / 2 := by
    by_cases hz : (sec : ℚ) + fr = 0
    · rw [hz, roundFloat64_zero]
      norm_num
    · refine le_trans (abs_roundFloat64_sub_le _) ?_
      have hE : ulpExp ((sec : ℚ) + fr) ≤ -19 := by
        apply ulpExp_le_of_lt hz _ (by norm_num)
        rw [abs_of_nonneg (add_nonneg hsq0 f.1)]
        norm_num
        linarith [f.2]
      exact div_le_div_of_nonneg_right
        (zpow_le_zpow_right₀ (a := (2 : ℚ)) (by norm_num) hE) (by norm_num)
  have hsplit : roundFloat64 ((sec : ℚ) + fr) - (d : ℚ) / 1000000000
      = (roundFloat64 ((sec : ℚ) + fr) - ((sec : ℚ) + fr))
        + (fr - (nsec : ℚ) / 1000000000) := by
    rw [hd]
    field_simp
    ring
  rw [hsplit]
  refine lt_of_le_of_lt (abs_add _ _) ?_
  have hnum : (2 : ℚ) ^ (-19 : Int) / 2 + 2 ^ (-53 : Int) / 2 < 1 / 500000 := by norm_num
  linarith

theorem roundHalfEven_eq_of_abs_lt {q : ℚ} {n : Int} (h : |q - n| < 1 / 2) :
    roundHalfEven q = n := by
  have h1 := abs_roundHalfEven_sub_le q
  rw [abs_le] at h1
  rw [abs_lt] at h
  have h2 : ((roundHalfEven q : Int) : ℚ) < ((n + 1 : Int) : ℚ) := by
    push_cast
    linarith
  have h3 : ((n - 1 : Int) : ℚ) < ((roundHalfEven q : Int) : ℚ) := by
    push_cast
    linarith
  have h4 : roundHalfEven q < n + 1 := by exact_mod_cast h2
  have h5 : n - 1 < roundHalfEven q := by exact_mod_cast h3
  omega

theorem roundFloat64_eq {x : ℚ} {n e : Int} (hlo : 2 ^ (e + 52) ≤ x) (hhi : x < 2 ^ (e + 53))
    (he : -1074 ≤ e) (hn : |x / 2 ^ e - n| < 1 / 2) : roundFloat64 x = (n : ℚ) * 2 ^ e := by
  have hx : 0 < x := lt_of_lt_of_le (two_zpow_pos _) hlo
  have h1 : e + 52 ≤ Int.log 2 x :=
    (Int.zpow_le_iff_le_log (b := 2) (by norm_num) hx).mp (by exact_mod_cast hlo)
  have h2 : Int.log 2 x < e + 53 :=
    (Int.lt_zpow_iff_log_lt (b := 2) (by norm_num) hx).mp (by exact_mod_cast hhi)
  have hE : ulpExp x = e := by
    rw [ulpExp, abs_of_pos hx]
    have : Int.log 2 x - 52 = e := by omega
    rw [this]
    exact max_eq_left he
  unfold roundFloat64
  rw [hE, roundHalfEven_eq_of_abs_lt hn]

theorem Seconds_example :
    Seconds 5000268123 = 2814900706936921 / 562949953421312 := by
  rw [Seconds_of_nonneg (by decide) (by decide)]
  have e1 : (5000268123 : Int) / Second = 5 := by decide
  have e2 : (5000268123 : Int) % Second = 268123 := by decide
  rw [e1, e2]
  have hf : roundFloat64 (((268123 : Int) : ℚ) / 1000000000)
      = ((4945996361275226 : Int) : ℚ) * 2 ^ (-64 : Int) := by
    apply roundFloat64_eq
    · norm_num
    · norm_num
    · norm_num
    · rw [abs_lt]
      constructor <;> norm_num
  rw [hf]
  have hs : roundFloat64 (((5 : Int) : ℚ) + ((4945996361275226 : Int) : ℚ) * 2 ^ (-64 : Int))
      = ((5629801413873842 : Int) : ℚ) * 2 ^ (-50 : Int) := by
    apply roundFloat64_eq
    · norm_num
    · norm_num
    · norm_num
    · rw [abs_lt]
      constructor <;> norm_num
  rw [hs]
  norm_num

theorem periodicTicks_succ (startTime : Int) (k : Nat) :
    periodicTicks startTime (k + 1)
      = periodicTicks startTime k ++ [startTime + ((k : Int) + 1) * tickPeriod] := by
  simp [periodicTicks, List.range_succ]

theorem uptimeAfter_append (env : Env) (startTime now : Int) (ticks : List Int) :
    uptimeAfter env startTime (ticks ++ [now]) =
      [{ labelValues := [runnerName env, runnerType env],
         value := Seconds (Since startTime now) }] := by
  simp [uptimeAfter]

theorem lookup_uptime_after_tick (env : Env) (startTime now : Int) (ticks : List Int) :
    (seeded env (uptimeAfter env startTime (ticks ++ [now]))).lookup runnerUptime.Name
      [runnerName env, runnerType env] = some (Seconds (Since startTime now)) := by
  rw [lookup_uptime_seeded, uptimeAfter_append]
  simp [findSeries]

theorem Seconds_periodic (startTime : Int) (k : Nat)
    (h : ((k : Int) + 1) * tickPeriod < 2 ^ 63) :
    Seconds (Since startTime (startTime + ((k : Int) + 1) * tickPeriod))
      = 5 * ((k : ℚ) + 1) := by
  have e : Since startTime (startTime + ((k : Int) + 1) * tickPeriod)
      = (5 * ((k : Int) + 1)) * Second := by
    simp only [Since, tickPeriod]
    ring
  rw [e, Seconds_whole (by omega) (by rw [← e]; simpa [Since] using h)]
  push_cast
  ring

theorem snapshot_seeded (env : Env) (u : List MetricSeries) :
    (seeded env u).snapshot =
      ({ name := runnerStatus.Name
         labels := [("runner_name", runnerName env), ("runner_type", runnerType env)]
         value := 1 } : Sample) ::
      (u.map (fun s => ({ name := runnerUptime.Name
                          labels := runnerUptime.labelNames.zip s.labelValues
                          value := s.value } : Sample)) ++
       [({ name := runnerInfo.Name
           labels := [("runner_name", runnerName env), ("runner_type", runnerType env),
                      ("version", runnerVersion)]
           value := 1 } : Sample)]) := by
  simp [Registry.snapshot, seeded, runnerStatus, runnerInfo, jobsTotal, cacheHitRate]

theorem ExponentialBuckets_call :
    ExponentialBuckets 10 2 10 = some [10, 20, 40, 80, 160, 320, 640, 1280, 2560, 5120] := by
  simp [ExponentialBuckets, expBucketsFrom]
  norm_num

theorem jobDuration_Buckets :
    jobDuration.Buckets = [10, 20, 40, 80, 160, 320, 640, 1280, 2560, 5120] := by
  simp [jobDuration, ExponentialBuckets_call]

/-! ## Claims -/

/-- C1. In every state reached by startup seeding followed by any number of
updater ticks, for every environment, the status series labelled
(runnerName, runnerType) and the info series labelled (runnerName,
runnerType, "2.329.0") both hold 1; the run consists of init followed by the
writes of the trace, and every write of the trace to the status or the info
family writes the value 1 (so never 0). -/
theorem status_and_info_stay_one (env : Env) (startTime : Int) (ticks : List Int) :
    (∃ reg, run env startTime ticks = .ok reg ∧
      reg.lookup runnerStatus.Name [runnerName env, runnerType env] = some 1 ∧
      reg.lookup runnerInfo.Name [runnerName env, runnerType env, "2.329.0"] = some 1) ∧
    run env startTime ticks = init.bind (fun r => execAll r (trace env startTime ticks)) ∧
    (∀ w ∈ trace env startTime ticks,
      (w.vec.Name = runnerStatus.Name ∨ w.vec.Name = runnerInfo.Name) →
        w.value = 1 ∧ w.value ≠ 0) := by
  refine ⟨⟨_, run_eq env startTime ticks, lookup_status_seeded env _, ?_⟩,
    run_eq_trace env startTime ticks, ?_⟩
  · exact lookup_info_seeded env _
  · intro w hw hname
    simp only [trace, main, updateMetrics, List.mem_append, List.mem_cons, List.mem_map,
      List.mem_singleton, List.not_mem_nil, or_false] at hw
    rcases hw with (rfl | rfl) | ⟨t, _, rfl⟩
    · simp
    · simp
    · exfalso
      revert hname
      simp only [updateMetricsTick]
      decide

/-- C2, the claim as stated fails: with RUNNER_NAME=ci-1, RUNNER_TYPE=gpu, the
updater started at clock reading 0 and one tick at 5000268123 ns, the uptime
series holds the float64 2814900706936921/562949953421312 and not the elapsed
time 5000268123/10^9 seconds itself. -/
theorem uptime_exactly_elapsed_cex :
    (∃ reg, run envCi 0 [5000268123] = .ok reg ∧
      reg.lookup runnerUptime.Name [runnerName envCi, runnerType envCi]
        = some (2814900706936921 / 562949953421312)) ∧
    ¬ (∃ reg, run envCi 0 [5000268123] = .ok reg ∧
        reg.lookup runnerUptime.Name [runnerName envCi, runnerType envCi]
          = some (((5000268123 - 0 : Int) : ℚ) / 1000000000)) := by
  have hl := lookup_uptime_after_tick envCi 0 5000268123 []
  have hS : Seconds (Since 0 5000268123) = 2814900706936921 / 562949953421312 := by
    have e : Since 0 5000268123 = 5000268123 := by decide
    rw [e, Seconds_example]
  rw [hS] at hl
  simp only [List.nil_append] at hl
  constructor
  · exact ⟨_, run_eq envCi 0 [5000268123], hl⟩
  · rintro ⟨reg, hreg, hv⟩
    rw [run_eq] at hreg
    cases hreg
    rw [hl] at hv
    norm_num at hv

/-- C2 as amended. A tick of the updater at clock reading t leaves the uptime
series labelled (runnerName, runnerType) holding the float64
time.Since(startTime).Seconds(), that is float64(sec) + float64(nsec)/1e9 for
the elapsed d = t - startTime nanoseconds. For t >= startTime and d within the
int64 range of a Duration this value is within 2 microseconds of d/10^9
seconds, and it is exactly d/10^9 when d is a whole number of seconds.
Consequently for non-decreasing tick times the values written are
non-decreasing; with ticks at exactly 5-second spacing the value after the
k-th tick is 5*k, and two further ticks raise it by 10. -/
theorem uptime_written_on_tick (env : Env) (startTime : Int) :
    (∀ (ticks : List Int) (t : Int), ∃ reg,
      run env startTime (ticks ++ [t]) = .ok reg ∧
      reg.lookup runnerUptime.Name [runnerName env, runnerType env]
        = some (Seconds (Since startTime t))) ∧
    (∀ t : Int, startTime ≤ t → t - startTime < 2 ^ 63 →
      |Seconds (Since startTime t) - ((t - startTime : Int) : ℚ) / 1000000000|
        < 1 / 500000) ∧
    (∀ s : Int, 0 ≤ s → s * Second < 2 ^ 63 →
      Seconds (Since startTime (startTime + s * Second)) = s ∧
      ((startTime + s * Second - startTime : Int) : ℚ) / 1000000000 = s) ∧
    (∀ ticks : List Int, (∀ t ∈ ticks, startTime ≤ t ∧ t - startTime < 2 ^ 63) →
      ticks.Pairwise (fun a b => a ≤ b) →
      ((updateMetrics env startTime ticks).map (fun w => w.value)).Pairwise
        (fun a b => a ≤ b)) ∧
    (∀ k : Nat, 1 ≤ k → (k : Int) * tickPeriod < 2 ^ 63 → ∃ reg,
      run env startTime (periodicTicks startTime k) = .ok reg ∧
      reg.lookup runnerUptime.Name [runnerName env, runnerType env] = some (5 * (k : ℚ))) ∧
    (∀ k : Nat, 1 ≤ k → ((k : Int) + 2) * tickPeriod < 2 ^ 63 → ∃ reg1 reg2 v,
      run env startTime (periodicTicks startTime k) = .ok reg1 ∧
      run env startTime (periodicTicks startTime (k + 2)) = .ok reg2 ∧
      reg1.lookup runnerUptime.Name [runnerName env, runnerType env] = some v ∧
      reg2.lookup runnerUptime.Name [runnerName env, runnerType env] = some (v + 10)) := by
  have key : ∀ k : Nat, ((k : Int) + 1) * tickPeriod < 2 ^ 63 →
      (seeded env (uptimeAfter env startTime (periodicTicks startTime (k + 1)))).lookup
        runnerUptime.Name [runnerName env, runnerType env] = some (5 * ((k : ℚ) + 1)) := by
    intro k hk
    rw [periodicTicks_succ, lookup_uptime_after_tick, Seconds_periodic startTime k hk]
  refine ⟨?_, ?_, ?_, ?_, ?_, ?_⟩
  · intro ticks t
    exact ⟨_, run_eq env startTime _, lookup_uptime_after_tick env startTime t ticks⟩
  · intro t h0 h1
    have := Seconds_error (d := t - startTime) (by omega) h1
    simpa [Since] using this
  · intro s h0 h1
    have e : Since startTime (startTime + s * Second) = s * Second := by
      simp only [Since]
      ring
    refine ⟨by rw [e, Seconds_whole h0 h1], ?_⟩
    simp only [Second]
    push_cast
    field_simp
  · intro ticks hr h
    simp only [updateMetrics, List.map_map]
    rw [List.pairwise_map]
    refine List.Pairwise.imp_of_mem ?_ h
    intro a b ha hb hab
    simp only [Function.comp, updateMetricsTick, Since]
    have h1 := (hr a ha).1
    have h2 := (hr b hb).2
    exact Seconds_mono (by omega) (by omega) h2
  · intro k hk hr
    obtain ⟨j, rfl⟩ : ∃ j, k = j + 1 := ⟨k - 1, by omega⟩
    refine ⟨_, run_eq env startTime _, ?_⟩
    rw [key j (by push_cast at hr; exact hr)]
    push_cast
    rfl
  · intro k hk hr
    obtain ⟨j, rfl⟩ : ∃ j, k = j + 1 := ⟨k - 1, by omega⟩
    have hp : (0 : Int) < tickPeriod := by decide
    have hr1 : ((j : Int) + 1) * tickPeriod < 2 ^ 63 := by
      push_cast at hr
      nlinarith
    have hr2 : (((j + 2 : Nat) : Int) + 1) * tickPeriod < 2 ^ 63 := by
      push_cast at hr ⊢
      have e : ((j : Int) + 2 + 1) * tickPeriod = ((j : Int) + 1 + 2) * tickPeriod := by ring
      rw [e]
      exact hr
    refine ⟨_, _, _, run_eq env startTime _, run_eq env startTime _, key j hr1, ?_⟩
    rw [key (j + 2) hr2]
    push_cast
    congr 1
    ring

/-- C2 as amended, at a concrete run: with RUNNER_NAME=ci-1, RUNNER_TYPE=gpu and
the updater started at clock reading 0, after ticks at 5 s, 10 s and 15 s the
uptime series holds 15. -/
theorem uptime_written_on_tick_witness :
    ∃ reg, run envCi 0 (periodicTicks 0 3) = .ok reg ∧
      reg.lookup runnerUptime.Name [runnerName envCi, runnerType envCi] = some (5 * (3 : ℚ)) :=
  (uptime_written_on_tick envCi 0).2.2.2.2.1 3 (by decide) (by decide)

/-- C3, the claim as stated fails: with RUNNER_NAME=ci-1 and RUNNER_TYPE=gpu,
the snapshot taken right after startup seeding contains no series of the uptime
family at all (under the declared name or the spec's shorter one), so none
with value 0. -/
theorem uptime_present_at_first_scrape_cex :
    ¬ (∃ reg, startup envCi = .ok reg ∧
        ∃ s ∈ reg.snapshot,
          (s.name = "runner_uptime_seconds" ∨ s.name = runnerUptime.Name) ∧ s.value = 0) := by
  rintro ⟨reg, hreg, s, hs, hname, -⟩
  rw [startup_eq] at hreg
  cases hreg
  rw [snapshot_seeded] at hs
  simp only [List.map_nil, List.nil_append, List.mem_cons, List.mem_singleton,
    List.not_mem_nil, or_false] at hs
  rcases hs with rfl | rfl <;> revert hname <;> decide

/-- C3 as amended. Right after startup seeding and before any tick, the uptime
family is declared but has no series: the lookup of (runnerName, runnerType)
finds nothing and the snapshot holds no sample of that family. The series is
created by the first tick of the updater, with that tick's uptime as value. -/
theorem uptime_absent_until_first_tick (env : Env) :
    ∃ reg, startup env = .ok reg ∧
      runnerUptime ∈ reg.families.map (fun f => f.desc) ∧
      reg.lookup runnerUptime.Name [runnerName env, runnerType env] = none ∧
      (∀ s ∈ reg.snapshot, s.name ≠ runnerUptime.Name) ∧
      ∀ startTime t : Int, ∃ reg1, run env startTime [t] = .ok reg1 ∧
        reg1.lookup runnerUptime.Name [runnerName env, runnerType env]
          = some (Seconds (Since startTime t)) := by
  refine ⟨_, startup_eq env, ?_, ?_, ?_, ?_⟩
  · simp [seeded]
  · rw [lookup_uptime_seeded]
    rfl
  · intro s hs
    rw [snapshot_seeded] at hs
    simp only [List.map_nil, List.nil_append, List.mem_cons, List.mem_singleton,
      List.not_mem_nil, or_false] at hs
    rcases hs with rfl | rfl <;> dsimp only <;> decide
  · intro startTime t
    exact ⟨_, run_eq env startTime [t], lookup_uptime_after_tick env startTime t []⟩

/-- C4, the claim as stated fails: no family declared by init carries any of
the six names the claim lists, and with RUNNER_NAME=ci-1 and RUNNER_TYPE=gpu
no series of the seeded snapshot is named runner_status or runner_info. -/
theorem family_names_as_claimed_cex :
    ¬ (∃ reg, init = .ok reg ∧ ∃ f ∈ reg.families,
        f.desc.Name ∈ ["runner_status", "runner_uptime_seconds", "runner_info",
          "jobs_total", "job_duration_seconds", "cache_hit_rate"]) ∧
    ¬ (∃ reg, startup envCi = .ok reg ∧ ∃ s ∈ reg.snapshot,
        s.name = "runner_status" ∨ s.name = "runner_info") := by
  constructor
  · rintro ⟨reg, hreg, f, hf, hname⟩
    rw [init_eq] at hreg
    cases hreg
    simp only [List.mem_cons, List.mem_singleton, List.not_mem_nil, or_false] at hf
    rcases hf with rfl | rfl | rfl | rfl | rfl | rfl <;> revert hname <;> decide
  · rintro ⟨reg, hreg, s, hs, hname⟩
    rw [startup_eq] at hreg
    cases hreg
    rw [snapshot_seeded] at hs
    simp only [List.map_nil, List.nil_append, List.mem_cons, List.mem_singleton,
      List.not_mem_nil, or_false] at hs
    rcases hs with rfl | rfl <;> revert hname <;> decide

/-- C4 as amended. The registry declares exactly six families, named
github_runner_status, github_runner_uptime_seconds, github_runner_info,
github_runner_jobs_total, github_runner_job_duration_seconds and
github_runner_cache_hit_rate; with RUNNER_NAME=ci-1 and RUNNER_TYPE=gpu the
seeded status series is github_runner_status with labels runner_name="ci-1",
runner_type="gpu", and the info series is github_runner_info with labels
runner_name="ci-1", runner_type="gpu", version="2.329.0", both with value 1. -/
theorem family_names_declared (env : Env) (hn : env "RUNNER_NAME" = some "ci-1")
    (ht : env "RUNNER_TYPE" = some "gpu") :
    (∃ reg, init = .ok reg ∧ reg.families.length = 6 ∧
      reg.families.map (fun f => f.desc.Name) =
        ["github_runner_status", "github_runner_uptime_seconds", "github_runner_info",
          "github_runner_jobs_total", "github_runner_job_duration_seconds",
          "github_runner_cache_hit_rate"]) ∧
    (∃ reg, startup env = .ok reg ∧
      ({ name := "github_runner_status"
         labels := [("runner_name", "ci-1"), ("runner_type", "gpu")]
         value := 1 } : Sample) ∈ reg.snapshot ∧
      ({ name := "github_runner_info"
         labels := [("runner_name", "ci-1"), ("runner_type", "gpu"), ("version", "2.329.0")]
         value := 1 } : Sample) ∈ reg.snapshot) := by
  have h1 : runnerName env = "ci-1" := by
    simp [runnerName, getEnvOrDefault, Getenv, hn]
  have h2 : runnerType env = "gpu" := by
    simp [runnerType, getEnvOrDefault, Getenv, ht]
  refine ⟨⟨_, init_eq, rfl, rfl⟩, _, startup_eq env, ?_, ?_⟩
  · rw [snapshot_seeded, h1, h2]
    simp [runnerStatus]
  · rw [snapshot_seeded, h1, h2]
    simp [runnerInfo, runnerVersion]

/-- C4 as amended, at the scenario's environment. -/
theorem family_names_declared_witness :
    envCi "RUNNER_NAME" = some "ci-1" ∧ envCi "RUNNER_TYPE" = some "gpu" ∧
    ∃ reg, startup envCi = .ok reg ∧
      ({ name := "github_runner_status"
         labels := [("runner_name", "ci-1"), ("runner_type", "gpu")]
         value := 1 } : Sample) ∈ reg.snapshot :=
  ⟨rfl, rfl,
    (family_names_declared envCi rfl rfl).2.elim fun reg h => ⟨reg, h.1, h.2.1⟩⟩

/-- C5. Each declared family has the kind and the ordered label names of the
spec table: status, uptime: gauge [runner_name, runner_type]; info: gauge
[runner_name, runner_type, version]; jobs total: counter [runner_name,
runner_type, status]; job duration: histogram [runner_name, runner_type,
status]; cache hit rate: gauge [runner_name, runner_type, cache_type]; these
are the families init registers, and each label list starts with
runner_name, runner_type. -/
theorem family_kinds_and_labels :
    (runnerStatus.kind = .gauge ∧ runnerStatus.labelNames = ["runner_name", "runner_type"]) ∧
    (runnerUptime.kind = .gauge ∧ runnerUptime.labelNames = ["runner_name", "runner_type"]) ∧
    (runnerInfo.kind = .gauge ∧
      runnerInfo.labelNames = ["runner_name", "runner_type", "version"]) ∧
    (jobsTotal.kind = .counter ∧
      jobsTotal.labelNames = ["runner_name", "runner_type", "status"]) ∧
    (jobDuration.kind = .histogram ∧
      jobDuration.labelNames = ["runner_name", "runner_type", "status"]) ∧
    (cacheHitRate.kind = .gauge ∧
      cacheHitRate.labelNames = ["runner_name", "runner_type", "cache_type"]) ∧
    ∃ reg, init = .ok reg ∧
      reg.families.map (fun f => f.desc) =
        [runnerStatus, runnerUptime, runnerInfo, jobsTotal, jobDuration, cacheHitRate] ∧
      ∀ f ∈ reg.families, f.desc.labelNames.take 2 = ["runner_name", "runner_type"] := by
  refine ⟨⟨rfl, rfl⟩, ⟨rfl, rfl⟩, ⟨rfl, rfl⟩, ⟨rfl, rfl⟩, ⟨rfl, rfl⟩, ⟨rfl, rfl⟩,
    _, init_eq, rfl, ?_⟩
  intro f hf
  simp only [List.mem_cons, List.mem_singleton, List.not_mem_nil, or_false] at hf
  rcases hf with rfl | rfl | rfl | rfl | rfl | rfl <;> rfl

/-- C6. The job-duration histogram is declared with exactly 10 bucket bounds,
the i-th (i = 0..9) being 10 * 2^i: [10, 20, 40, 80, 160, 320, 640, 1280,
2560, 5120]; the list is strictly increasing, starts at 10 and ends at 5120. -/
theorem job_duration_buckets :
    ExponentialBuckets 10 2 10 = some [10, 20, 40, 80, 160, 320, 640, 1280, 2560, 5120] ∧
    jobDuration.Buckets = [10, 20, 40, 80, 160, 320, 640, 1280, 2560, 5120] ∧
    jobDuration.Buckets.length = 10 ∧
    (∀ i : Nat, i < 10 → jobDuration.Buckets[i]? = some (10 * 2 ^ i)) ∧
    jobDuration.Buckets.Pairwise (fun a b => a < b) ∧
    jobDuration.Buckets.head? = some 10 ∧
    jobDuration.Buckets.getLast? = some 5120 := by
  have h := jobDuration_Buckets
  refine ⟨ExponentialBuckets_call, h, ?_, ?_, ?_, ?_, ?_⟩
  · rw [h]; rfl
  · intro i hi
    rw [h]
    interval_cases i <;> norm_num
  · rw [h]
    norm_num
  · rw [h]; rfl
  · rw [h]; rfl

/-- C7. For every request and every registry state the health handler answers
with status 200 and body "OK"; serving the request leaves the registry as it
was; the response is the same for any two requests and registry states; and
this holds in the state right after startup, before the updater has run a
tick. -/
theorem health_is_constant (reg reg1 : Registry) (r r1 : Request) :
    (serveHealth reg r).2 = { status := some 200, body := "OK" } ∧
    (serveHealth reg r).1 = reg ∧
    (serveHealth reg r).2 = (serveHealth reg1 r1).2 ∧
    (∀ env : Env, ∃ reg0, startup env = .ok reg0 ∧
      (serveHealth reg0 r).2 = { status := some 200, body := "OK" } ∧
      (serveHealth reg0 r).1 = reg0) := by
  refine ⟨rfl, rfl, rfl, ?_⟩
  intro env
  exact ⟨_, startup_eq env, rfl, rfl⟩

/-- C8. The function getEnvOrDefault returns the value of the variable when
it is set to a non-empty string and the default when it is unset or set to
the empty string; so runnerName is "unknown" and runnerType is "standard"
when their variables are unset or empty, and the result is never empty when
the default is not. -/
theorem getEnvOrDefault_spec (env : Env) (key defaultValue : String) :
    (∀ v : String, env key = some v → v ≠ "" → getEnvOrDefault env key defaultValue = v) ∧
    (env key = none → getEnvOrDefault env key defaultValue = defaultValue) ∧
    (env key = some "" → getEnvOrDefault env key defaultValue = defaultValue) ∧
    (defaultValue ≠ "" → getEnvOrDefault env key defaultValue ≠ "") ∧
    ((env "RUNNER_NAME" = none ∨ env "RUNNER_NAME" = some "") → runnerName env = "unknown") ∧
    ((env "RUNNER_TYPE" = none ∨ env "RUNNER_TYPE" = some "") →
      runnerType env = "standard") := by
  refine ⟨?_, ?_, ?_, ?_, ?_, ?_⟩
  · intro v hv hne
    simp [getEnvOrDefault, Getenv, hv, hne]
  · intro hv
    simp [getEnvOrDefault, Getenv, hv]
  · intro hv
    simp [getEnvOrDefault, Getenv, hv]
  · intro hd
    unfold getEnvOrDefault
    by_cases h : Getenv env key = ""
    · simp [h, hd]
    · simp [h]
  · rintro (h | h) <;> simp [runnerName, getEnvOrDefault, Getenv, h]
  · rintro (h | h) <;> simp [runnerType, getEnvOrDefault, Getenv, h]

/-- C8 at concrete environments: unset and empty variables give the defaults,
a set variable gives its value. -/
theorem getEnvOrDefault_spec_witness :
    runnerName envUnset = "unknown" ∧ runnerType envUnset = "standard" ∧
    runnerName envBlank = "unknown" ∧ runnerType envBlank = "standard" ∧
    getEnvOrDefault envCi "RUNNER_NAME" "unknown" = "ci-1" :=
  ⟨(getEnvOrDefault_spec envUnset "RUNNER_NAME" "unknown").2.2.2.2.1 (Or.inl rfl),
   (getEnvOrDefault_spec envUnset "RUNNER_TYPE" "standard").2.2.2.2.2 (Or.inl rfl),
   (getEnvOrDefault_spec envBlank "RUNNER_NAME" "unknown").2.2.2.2.1 (Or.inr rfl),
   (getEnvOrDefault_spec envBlank "RUNNER_TYPE" "standard").2.2.2.2.2 (Or.inr rfl),
   (getEnvOrDefault_spec envCi "RUNNER_NAME" "unknown").1 "ci-1" rfl (by decide)⟩

/-- C9, the code at its declaration: the bounds produced by
ExponentialBuckets(10, 2, 10) start at 10 seconds, and the largest is 5120
seconds (about 1.42 hours), below the 9720 to 10440 seconds (2.7 h to 2.9 h)
that the source comment "10s to ~2.8h" announces. -/
theorem job_duration_largest_bucket :
    jobDuration.Buckets.head? = some 10 ∧
    ∃ b : ℚ, jobDuration.Buckets.getLast? = some b ∧ b = 5120 ∧
      ¬ (9720 ≤ b ∧ b ≤ 10440) := by
  have h := jobDuration_Buckets
  refine ⟨by rw [h]; rfl, 5120, by rw [h]; rfl, rfl, ?_⟩
  norm_num

/-- C10. The six names registered by init are pairwise distinct and init
succeeds; the run is init followed by the writes of the trace, and every
write of the trace (the two seeding writes and the uptime write of each tick) targets a family that init declared, of kind gauge, with
as many label values as the family has label names, in the declared order (2
for status and uptime, 3 for info); hence startup followed by any number of
ticks ends in a registry and in no registry-level error, for every
environment. -/
theorem no_registry_error_reachable (env : Env) (startTime : Int) (ticks : List Int) :
    ([runnerStatus, runnerUptime, runnerInfo, jobsTotal, jobDuration, cacheHitRate].map
      (fun v => v.Name)).Nodup ∧
    (∃ reg, init = .ok reg ∧
      reg.families.map (fun f => f.desc) =
        [runnerStatus, runnerUptime, runnerInfo, jobsTotal, jobDuration, cacheHitRate]) ∧
    run env startTime ticks = init.bind (fun r => execAll r (trace env startTime ticks)) ∧
    (∀ w ∈ trace env startTime ticks,
      (w.vec = runnerStatus ∧ w.labelValues = [runnerName env, runnerType env]) ∨
      (w.vec = runnerInfo ∧
        w.labelValues = [runnerName env, runnerType env, runnerVersion]) ∨
      (w.vec = runnerUptime ∧ w.labelValues = [runnerName env, runnerType env])) ∧
    (∀ w ∈ trace env startTime ticks,
      w.vec ∈ [runnerStatus, runnerUptime, runnerInfo, jobsTotal, jobDuration, cacheHitRate] ∧
      w.vec.kind = .gauge ∧
      w.labelValues.length = w.vec.labelNames.length) ∧
    (∃ reg, run env startTime ticks = .ok reg) ∧
    (∀ e : RegistryError, run env startTime ticks ≠ .error e) := by
  have hshape : ∀ w ∈ trace env startTime ticks,
      (w.vec = runnerStatus ∧ w.labelValues = [runnerName env, runnerType env]) ∨
      (w.vec = runnerInfo ∧
        w.labelValues = [runnerName env, runnerType env, runnerVersion]) ∨
      (w.vec = runnerUptime ∧ w.labelValues = [runnerName env, runnerType env]) := by
    intro w hw
    simp only [trace, main, updateMetrics, List.mem_append, List.mem_cons, List.mem_map,
      List.mem_singleton, List.not_mem_nil, or_false] at hw
    rcases hw with (rfl | rfl) | ⟨t, _, rfl⟩
    · exact Or.inl ⟨rfl, rfl⟩
    · exact Or.inr (Or.inl ⟨rfl, rfl⟩)
    · exact Or.inr (Or.inr ⟨rfl, rfl⟩)
  refine ⟨by decide, ⟨_, init_eq, rfl⟩, run_eq_trace env startTime ticks, hshape, ?_,
    ⟨_, run_eq env startTime ticks⟩, ?_⟩
  · intro w hw
    rcases hshape w hw with ⟨hv, hl⟩ | ⟨hv, hl⟩ | ⟨hv, hl⟩ <;> rw [hv, hl] <;>
      exact ⟨by simp, rfl, rfl⟩
  · intro e he
    rw [run_eq] at he
    cases he

end MetricsExporter
